import Mathlib

/-!
Verification development for `kmlparse.py` (KML parser / simplifier script).

The script is embedded shallowly:

* The module-level main loop (lines 138-170 of `kmlparse.py`) is a fold of a
  step function over the input lines, acting on a state holding the current
  `name`, the accumulated `points`, and the ordered list `out` of
  `(name, points)` groups handed to `Simplified`/`KmlOut` so far.
* The regular expression
  `<name>([\w\s]*)</name>|(-\d{2}.\d{6})\d*,(\d{2}.\d{6})\d*`
  used with `re.search` is embedded as an executable leftmost-match search.
  Note the two dots in the numeric alternative are NOT escaped in the source:
  they are wildcards matching any character except a newline.  Character
  classes are modelled at ASCII (the input format is ASCII markup).
* A coordinate point is recorded as the pair of captured numeral strings
  (`m.group(2)`, `m.group(3)`); the Python code stores
  `[float(g2), float(g3)]`, and no arithmetic is performed on those floats
  before they reach the external `simplification` library, so the numeral
  text is the faithful carrier of the parsed information.
* `Simplified` is embedded with the external library call
  `simplify_coords` as an explicit function parameter (the library is out of
  the repository's scope); the Python `str` rendering of a float is likewise
  a parameter.  The `IndexError` raised by `outpoints[0]` on an empty list is
  modelled by returning `none`.
-/

namespace KmlParse

/-- Characters matched by the regex class `\w` (ASCII model: letters, digits,
underscore). -/
def isWordC (c : Char) : Bool := c.isAlpha || c.isDigit || c = '_'

/-- Characters matched by the regex class `\s` (ASCII model: space, tab,
newline, carriage return, vertical tab, form feed). -/
def isSpaceC (c : Char) : Bool :=
  c = ' ' || c = '\t' || c = '\n' || c = '\r' || c = '\x0b' || c = '\x0c'

/-- Result of a successful `re.search` of the parser's pattern: either the
name alternative matched (capture group 1) or the coordinate alternative
matched (capture groups 2 and 3). -/
inductive MatchRes where
  | nameM (t : List Char)
  | coordM (g2 g3 : List Char)
deriving DecidableEq

/-- Attempt to match the alternative `<name>([\w\s]*)</name>` at the start of
`cs`.  The greedy capture `[\w\s]*` cannot overlap the closing tag (whose
characters are outside the class), so it is exactly the maximal run of
word/space characters, which must be followed by the literal `</name>`. -/
def tryNameAt (cs : List Char) : Option (List Char) :=
  match cs with
  | '<' :: 'n' :: 'a' :: 'm' :: 'e' :: '>' :: rest =>
      match rest.dropWhile (fun c => isWordC c || isSpaceC c) with
      | '<' :: '/' :: 'n' :: 'a' :: 'm' :: 'e' :: '>' :: _ =>
          some (rest.takeWhile (fun c => isWordC c || isSpaceC c))
      | _ => none
  | _ => none

/-- Attempt to match the alternative `(-\d{2}.\d{6})\d*,(\d{2}.\d{6})\d*` at
the start of `cs`.  The dots are unescaped wildcards (any character except a
newline).  The greedy `\d*` after each captured group consumes every
following digit; the comma must then follow immediately (a shorter `\d*`
match would leave a digit where the comma is required, so no backtracking
case is lost).  Returns the two captured groups. -/
def tryCoordAt (cs : List Char) : Option (List Char × List Char) :=
  match cs with
  | m :: a :: b :: c :: d1 :: d2 :: d3 :: d4 :: d5 :: d6 :: rest =>
      if m = '-' && a.isDigit && b.isDigit && !(c = '\n')
          && d1.isDigit && d2.isDigit && d3.isDigit
          && d4.isDigit && d5.isDigit && d6.isDigit then
        match rest.dropWhile Char.isDigit with
        | ',' :: e :: f :: g :: h1 :: h2 :: h3 :: h4 :: h5 :: h6 :: _ =>
            if e.isDigit && f.isDigit && !(g = '\n')
                && h1.isDigit && h2.isDigit && h3.isDigit
                && h4.isDigit && h5.isDigit && h6.isDigit then
              some ('-' :: a :: b :: c :: [d1, d2, d3, d4, d5, d6],
                    e :: f :: g :: [h1, h2, h3, h4, h5, h6])
            else none
        | _ => none
      else none
  | _ => none

/-- Leftmost-match search of the parser's regular expression, as `re.search`
performs it: starting positions are tried left to right, and at each position
the name alternative is tried before the coordinate alternative. -/
def reSearch : List Char → Option MatchRes
  | [] => none
  | c :: cs =>
      match tryNameAt (c :: cs) with
      | some t => some (.nameM t)
      | none =>
          match tryCoordAt (c :: cs) with
          | some (g2, g3) => some (.coordM g2 g3)
          | none => reSearch cs

/-- The three-way classification of a line realized by the `if m and
m.group(1)` / `elif m and m.group(2) and m.group(3)` / `elif` chain of the
main loop.  A match of the name alternative with an EMPTY capture falls
through both guards (empty strings are falsy in Python, and groups 2 and 3
are `None` on a name match), so such a line acts as a separator. -/
inductive LineClass where
  | nameRec (t : String)
  | coordRec (g2 g3 : String)
  | sep
deriving DecidableEq

/-- Classify a line (given as its character list) exactly as the main
loop's branch chain does. -/
def classifyL (l : List Char) : LineClass :=
  match reSearch l with
  | some (.nameM t) => if t.isEmpty then .sep else .nameRec (String.mk t)
  | some (.coordM g2 g3) => .coordRec (String.mk g2) (String.mk g3)
  | none => .sep

/-- Classify one input line exactly as the main loop's branch chain does. -/
def classify (l : String) : LineClass := classifyL l.data

/-- Python `t.replace(' ', '_')`: a single-character replace is a
character-wise map sending each space to an underscore. -/
def pyReplaceSpace (t : String) : String :=
  String.mk (t.data.map fun c => if c = ' ' then '_' else c)

/-- State of the main loop: the current polygon `name`, the accumulated
`points` (captured numeral pairs, longitude first), and the ordered list
`out` of `(name, points)` groups handed off to `Simplified`/`KmlOut`. -/
structure St where
  name : String
  points : List (String × String)
  out : List (String × List (String × String))
deriving DecidableEq

/-- Initial state of the main loop (`name = ''`, `points = []`). -/
def initSt : St := ⟨"", [], []⟩

/-- One iteration of the main loop body on line `l`. -/
def mainStep (s : St) (l : String) : St :=
  match classify l with
  | .nameRec t => { s with name := pyReplaceSpace t }
  | .coordRec g2 g3 => { s with points := s.points ++ [(g2, g3)] }
  | .sep =>
      if s.points.isEmpty then s
      else { s with out := s.out ++ [(s.name, s.points)], points := [] }

/-- The whole main loop: fold the step over the file's lines.  Nothing
follows the loop in the script, so this is the complete behavior of the
program on a given line stream. -/
def mainLoop (s : St) (ls : List String) : St := ls.foldl mainStep s

/-- The fixed simplification tolerance `lineWidth = 0.001` of `Simplified`,
modelled as the exact rational it denotes (it is only ever passed through to
the external library). -/
def lineWidth : ℚ := 1 / 1000

/-- `Simplified` from `kmlparse.py`, with the external library function
`simplify_coords` (the `simplification` package, outside this repository)
and the Python `str` rendering of a point component as parameters.  The
body mirrors the source: call the library at tolerance `lineWidth`, append
elevation `0` to each returned point and stringify the components, append
the first element of the resulting list to its end (`outpoints[0]` raises
`IndexError` on an empty list, modelled as `none`), and comma-join each
triple. -/
def Simplified {α : Type} (pystr : α → String)
    (simplify_coords : List (α × α) → ℚ → List (α × α))
    (inpoints : List (α × α)) : Option (List String) :=
  match (simplify_coords inpoints lineWidth).map
      (fun x => [pystr x.1, pystr x.2, "0"]) with
  | [] => none
  | y :: rest => some (((y :: rest) ++ [y]).map (String.intercalate ","))

/-- Modelled from the spec for the refinement check of claim C3 (the code
itself is the `re.search` above): a STRICT coordinate record as the spec
words it, i.e. the same shape as `tryCoordAt` but with the two decimal
points required to be literal `'.'` characters. -/
def strictCoordAt (cs : List Char) : Bool :=
  match cs with
  | m :: a :: b :: c :: d1 :: d2 :: d3 :: d4 :: d5 :: d6 :: rest =>
      (m = '-' && a.isDigit && b.isDigit && c = '.'
          && d1.isDigit && d2.isDigit && d3.isDigit
          && d4.isDigit && d5.isDigit && d6.isDigit)
        && (match rest.dropWhile Char.isDigit with
            | ',' :: e :: f :: g :: h1 :: h2 :: h3 :: h4 :: h5 :: h6 :: _ =>
                e.isDigit && f.isDigit && g = '.'
                  && h1.isDigit && h2.isDigit && h3.isDigit
                  && h4.isDigit && h5.isDigit && h6.isDigit
            | _ => false)
  | _ => false

/-- Modelled from the spec for the refinement check of claim C3: the line
contains, at some position, two decimal numbers of the form `-DD.DDDDDD` and
`DD.DDDDDD` (literal decimal points, at least six fractional digits)
separated by a comma, longitude first. -/
def containsStrictCoord : List Char → Bool
  | [] => false
  | c :: cs => strictCoordAt (c :: cs) || containsStrictCoord cs

/-! Helper lemmas about `Simplified`. -/

/-- Unfolding of `Simplified` when the library call returns a nonempty list. -/
lemma Simplified_eq {α : Type} (pystr : α → String)
    (simplify_coords : List (α × α) → ℚ → List (α × α))
    (inpoints : List (α × α)) (z : α × α) (zs : List (α × α))
    (hz : simplify_coords inpoints lineWidth = z :: zs) :
    Simplified pystr simplify_coords inpoints =
      some ((([pystr z.1, pystr z.2, "0"] ::
          zs.map fun x => [pystr x.1, pystr x.2, "0"]) ++
        [[pystr z.1, pystr z.2, "0"]]).map (String.intercalate ",")) := by
  unfold Simplified
  rw [hz]
  rfl

/-- `Simplified` succeeds on a nonempty input whenever the library keeps
nonempty inputs nonempty (the RDP contract: endpoints are retained). -/
lemma Simplified_ne_none {α : Type} (pystr : α → String)
    (simplify_coords : List (α × α) → ℚ → List (α × α))
    (hlib : ∀ ps t, ps ≠ [] → simplify_coords ps t ≠ [])
    (inpoints : List (α × α)) (hne : inpoints ≠ []) :
    Simplified pystr simplify_coords inpoints ≠ none := by
  rcases hz : simplify_coords inpoints lineWidth with _ | ⟨z, zs⟩
  · exact absurd hz (hlib _ _ hne)
  · rw [Simplified_eq pystr simplify_coords inpoints z zs hz]
    exact Option.some_ne_none _

/-- C2: for every non-empty input point sequence, and any library function
satisfying the RDP nonemptiness contract, `Simplified` returns a value whose
first element is textually equal to its last element (the closing duplicate
appended after simplification). -/
theorem C2_closure {α : Type} (pystr : α → String)
    (simplify_coords : List (α × α) → ℚ → List (α × α))
    (hlib : ∀ ps t, ps ≠ [] → simplify_coords ps t ≠ [])
    (inpoints : List (α × α)) (hne : inpoints ≠ []) :
    Simplified pystr simplify_coords inpoints ≠ none ∧
    ∀ out, Simplified pystr simplify_coords inpoints = some out →
      out ≠ [] ∧ out.head? = out.getLast? := by
  refine ⟨Simplified_ne_none pystr simplify_coords hlib inpoints hne, ?_⟩
  intro out hout
  rcases hz : simplify_coords inpoints lineWidth with _ | ⟨z, zs⟩
  · exact absurd hz (hlib _ _ hne)
  · rw [Simplified_eq pystr simplify_coords inpoints z zs hz] at hout
    injection hout with hout
    subst hout
    refine ⟨by simp, ?_⟩
    simp only [List.map_append, List.map_cons, List.map_nil]
    rw [List.getLast?_concat]
    rfl

/-- C2 witness: a concrete run of the pipeline on a one-point sequence with
the identity library, showing the closed-loop output. -/
theorem C2_witness :
    Simplified (fun (s : String) => s) (fun ps _ => ps)
        [("-97.123456", "29.123456")] ≠ none ∧
    (["-97.123456,29.123456,0", "-97.123456,29.123456,0"] : List String) ≠ [] ∧
    (["-97.123456,29.123456,0", "-97.123456,29.123456,0"] : List String).head? =
      (["-97.123456,29.123456,0", "-97.123456,29.123456,0"] : List String).getLast? := by
  have h := C2_closure (fun (s : String) => s) (fun ps _ => ps)
    (fun ps t hp => hp) [("-97.123456", "29.123456")] (by decide)
  exact ⟨h.1, (h.2 ["-97.123456,29.123456,0", "-97.123456,29.123456,0"] rfl).1,
    (h.2 ["-97.123456,29.123456,0", "-97.123456,29.123456,0"] rfl).2⟩

/-- C5: for every input point sequence of length at least 1, and any library
function satisfying the RDP nonemptiness contract, `Simplified` returns a
sequence of length at least 2 (one real point plus its closing duplicate). -/
theorem C5_nondegenerate {α : Type} (pystr : α → String)
    (simplify_coords : List (α × α) → ℚ → List (α × α))
    (hlib : ∀ ps t, ps ≠ [] → simplify_coords ps t ≠ [])
    (inpoints : List (α × α)) (hne : 1 ≤ inpoints.length) :
    Simplified pystr simplify_coords inpoints ≠ none ∧
    ∀ out, Simplified pystr simplify_coords inpoints = some out →
      2 ≤ out.length := by
  have hne' : inpoints ≠ [] := by
    intro h
    rw [h] at hne
    simp at hne
  refine ⟨Simplified_ne_none pystr simplify_coords hlib inpoints hne', ?_⟩
  intro out hout
  rcases hz : simplify_coords inpoints lineWidth with _ | ⟨z, zs⟩
  · exact absurd hz (hlib _ _ hne')
  · rw [Simplified_eq pystr simplify_coords inpoints z zs hz] at hout
    injection hout with hout
    subst hout
    simp

/-- C5 witness: the concrete one-point run has output length 2. -/
theorem C5_witness :
    Simplified (fun (s : String) => s) (fun ps _ => ps)
        [("-97.123456", "29.123456")] ≠ none ∧
    2 ≤ (["-97.123456,29.123456,0", "-97.123456,29.123456,0"] : List String).length := by
  have h := C5_nondegenerate (fun (s : String) => s) (fun ps _ => ps)
    (fun ps t hp => hp) [("-97.123456", "29.123456")] (by decide)
  exact ⟨h.1, h.2 ["-97.123456,29.123456,0", "-97.123456,29.123456,0"] rfl⟩

/-- C6: invoking `Simplified` with an empty point sequence fails (the
`outpoints[0]` access raises, modelled as `none`): no value is returned.
The hypothesis records that the external library maps an empty input to an
empty output. -/
theorem C6_empty_fails {α : Type} (pystr : α → String)
    (simplify_coords : List (α × α) → ℚ → List (α × α))
    (hlib0 : simplify_coords [] lineWidth = []) :
    Simplified pystr simplify_coords [] = none := by
  unfold Simplified
  rw [hlib0]
  rfl

/-- C6 witness: the concrete empty-input run with the identity library
returns no value. -/
theorem C6_witness :
    Simplified (fun (s : String) => s) (fun ps _ => ps)
        ([] : List (String × String)) = none :=
  C6_empty_fails (fun (s : String) => s) (fun ps _ => ps) rfl

/-! Claims about the main-loop state machine. -/

/-- C1 counterexample: on a stream whose last line is a coordinate record,
the loop ends with the final group still pending and NO group ever handed
off — the script contains no code after the `for` loop, so no end-of-stream
completion handoff fires. -/
theorem C1_counterexample :
    (mainLoop initSt ["<name>A</name>", "-97.123456,29.123456"]).out = [] ∧
    (mainLoop initSt ["<name>A</name>", "-97.123456,29.123456"]).points ≠ [] := by
  decide

/-- C1 (amended): at end of stream pending points are NOT flushed — the
pending group is handed off only when a further separator line is read:
appending one separator line to any stream with pending points emits exactly
the pending `(name, points)` group. -/
theorem C1_amended (s : St) (ls : List String)
    (h : (mainLoop s ls).points ≠ []) :
    mainLoop s (ls ++ [""]) =
      { name := (mainLoop s ls).name, points := [],
        out := (mainLoop s ls).out ++
          [((mainLoop s ls).name, (mainLoop s ls).points)] } := by
  have hfold : mainLoop s (ls ++ [""]) = mainStep (mainLoop s ls) "" := by
    unfold mainLoop
    rw [List.foldl_append]
    rfl
  rw [hfold]
  unfold mainStep
  rw [show classify "" = LineClass.sep from rfl]
  cases hpt : (mainLoop s ls).points with
  | nil => exact absurd hpt h
  | cons a as => simp [hpt]

/-- C1 witness: the two-line stream of the counterexample followed by one
explicit separator line does emit its group. -/
theorem C1_witness :
    (mainLoop initSt ["<name>A</name>", "-97.123456,29.123456"]).points ≠ [] ∧
    mainLoop initSt (["<name>A</name>", "-97.123456,29.123456"] ++ [""]) =
      { name := "A", points := [],
        out := [("A", [("-97.123456", "29.123456")])] } := by
  refine ⟨by decide, ?_⟩
  rw [C1_amended initSt ["<name>A</name>", "-97.123456,29.123456"] (by decide)]
  decide

/-- C4: the coordinate-like line `-97.7678,29.4345` (only 4 fractional
digits) is classified as a separator, not a coordinate record, and on a
state with pending points it flushes the pending group. -/
theorem C4_malformed_sep :
    classify "-97.7678,29.4345" = LineClass.sep ∧
    ∀ s : St, s.points ≠ [] →
      mainStep s "-97.7678,29.4345" =
        { name := s.name, points := [], out := s.out ++ [(s.name, s.points)] } := by
  refine ⟨by decide, ?_⟩
  intro s hp
  unfold mainStep
  rw [show classify "-97.7678,29.4345" = LineClass.sep from by decide]
  cases hpt : s.points with
  | nil => exact absurd hpt hp
  | cons a as => simp [hpt]

/-- C4 witness: a concrete pending state is flushed by the malformed
coordinate line. -/
theorem C4_witness :
    classify "-97.7678,29.4345" = LineClass.sep ∧
    mainStep ⟨"N", [("1", "2")], []⟩ "-97.7678,29.4345" =
      ⟨"N", [], [("N", [("1", "2")])]⟩ := by
  refine ⟨C4_malformed_sep.1, ?_⟩
  rw [C4_malformed_sep.2 ⟨"N", [("1", "2")], []⟩ (by decide)]
  rfl

/-- C7 counterexample: the name branch replaces EACH space character by an
underscore rather than collapsing a whitespace run to one underscore: the
captured name `Bell  County` (two spaces) yields `Bell__County`, not
`Bell_County`. -/
theorem C7_counterexample :
    (mainStep initSt "<name>Bell  County</name>").name = "Bell__County" ∧
    (mainStep initSt "<name>Bell  County</name>").name ≠ "Bell_County" := by
  decide

/-- C7 (amended): on a name record the current name becomes the captured
text with every space character (individually) replaced by an underscore;
other whitespace is unchanged; in particular `Bell County` yields
`Bell_County`. -/
theorem C7_amended :
    (∀ (s : St) (l t : String), classify l = LineClass.nameRec t →
        (mainStep s l).name =
          String.mk (t.data.map fun ch => if ch = ' ' then '_' else ch)) ∧
    (mainStep initSt "<name>Bell County</name>").name = "Bell_County" := by
  constructor
  · intro s l t h
    unfold mainStep
    rw [h]
    rfl
  · decide

/-- C7 witness: the single-space name record from the spec. -/
theorem C7_witness :
    classify "<name>Bell County</name>" = LineClass.nameRec "Bell County" ∧
    (mainStep initSt "<name>Bell County</name>").name =
      String.mk ("Bell County".data.map fun ch => if ch = ' ' then '_' else ch) :=
  ⟨by decide, C7_amended.1 initSt "<name>Bell County</name>" "Bell County" (by decide)⟩

/-- C8: a name record leaves the accumulated points and the emitted groups
unchanged (no flush), and conversely any step that changes the emitted
groups was a separator line with pending points. -/
theorem C8_name_no_flush :
    (∀ (s : St) (l t : String), classify l = LineClass.nameRec t →
        (mainStep s l).points = s.points ∧ (mainStep s l).out = s.out) ∧
    (∀ (s : St) (l : String), (mainStep s l).out ≠ s.out →
        classify l = LineClass.sep ∧ s.points ≠ []) := by
  constructor
  · intro s l t h
    unfold mainStep
    rw [h]
    exact ⟨rfl, rfl⟩
  · intro s l h
    unfold mainStep at h
    cases hc : classify l with
    | nameRec t => rw [hc] at h; exact absurd rfl h
    | coordRec g2 g3 => rw [hc] at h; exact absurd rfl h
    | sep =>
        refine ⟨rfl, ?_⟩
        rw [hc] at h
        intro hnil
        rw [if_pos (by rw [hnil]; rfl)] at h
        exact absurd rfl h

/-- C8 witness: a name record processed on a pending state leaves points and
output unchanged, and a concrete flushing step was a separator with pending
points. -/
theorem C8_witness :
    ((mainStep ⟨"N", [("1", "2")], []⟩ "<name>A</name>").points = [("1", "2")] ∧
      (mainStep ⟨"N", [("1", "2")], []⟩ "<name>A</name>").out = []) ∧
    (classify "zz" = LineClass.sep ∧ ([("1", "2")] : List (String × String)) ≠ []) := by
  constructor
  · exact C8_name_no_flush.1 ⟨"N", [("1", "2")], []⟩ "<name>A</name>" "A" (by decide)
  · exact C8_name_no_flush.2 ⟨"N", [("1", "2")], []⟩ "zz" (by decide)

/-- C10: a line whose name tag captures empty text is treated as a
separator: it never changes the current name, is a no-op without pending
points, and flushes the pending group otherwise. -/
theorem C10_empty_name_sep :
    classify "<name></name>" = LineClass.sep ∧
    (∀ s : St, s.points = [] → mainStep s "<name></name>" = s) ∧
    (∀ s : St, s.points ≠ [] →
        mainStep s "<name></name>" =
          { name := s.name, points := [],
            out := s.out ++ [(s.name, s.points)] }) := by
  refine ⟨by decide, ?_, ?_⟩
  · intro s hp
    unfold mainStep
    rw [show classify "<name></name>" = LineClass.sep from by decide]
    rw [if_pos (by rw [hp]; rfl)]
  · intro s hp
    unfold mainStep
    rw [show classify "<name></name>" = LineClass.sep from by decide]
    cases hpt : s.points with
    | nil => exact absurd hpt hp
    | cons a as => simp [hpt]

/-- C10 witness: the no-op case and the flushing case at concrete states. -/
theorem C10_witness :
    mainStep ⟨"N", [], []⟩ "<name></name>" = ⟨"N", [], []⟩ ∧
    mainStep ⟨"N", [("1", "2")], []⟩ "<name></name>" =
      ⟨"N", [], [("N", [("1", "2")])]⟩ := by
  constructor
  · exact C10_empty_name_sep.2.1 ⟨"N", [], []⟩ rfl
  · rw [C10_empty_name_sep.2.2 ⟨"N", [("1", "2")], []⟩ (by decide)]
    rfl

/-! Helper lemmas for C9: every group ever handed off has pending points. -/

/-- One step preserves the invariant that every emitted group has a
nonempty point sequence (the flush is guarded by `len(points)`). -/
lemma mainStep_out_nonempty (s : St) (l : String)
    (h : ∀ g ∈ s.out, g.2 ≠ []) :
    ∀ g ∈ (mainStep s l).out, g.2 ≠ [] := by
  unfold mainStep
  cases classify l with
  | nameRec t => exact h
  | coordRec g2 g3 => exact h
  | sep =>
      intro g hg
      by_cases hpt : s.points.isEmpty = true
      · rw [if_pos hpt] at hg
        exact h g hg
      · rw [if_neg hpt] at hg
        simp only [List.mem_append, List.mem_singleton] at hg
        rcases hg with h1 | h2
        · exact h g h1
        · subst h2
          intro hnil
          exact hpt (by rw [show s.points = [] from hnil]; rfl)

/-- The whole loop preserves the nonempty-group invariant. -/
lemma mainLoop_out_nonempty (s : St) (ls : List String)
    (h : ∀ g ∈ s.out, g.2 ≠ []) :
    ∀ g ∈ (mainLoop s ls).out, g.2 ≠ [] := by
  induction ls generalizing s with
  | nil => exact h
  | cons l ls ih => exact ih (mainStep s l) (mainStep_out_nonempty s l h)

/-- C9: in any complete run of the extraction pipeline, every group handed
to the Simplifier has at least one point, so `Simplified`'s empty-input
failure (the first-element access) is unreachable: it returns a value on
every handed-off group, for any library satisfying the RDP nonemptiness
contract. -/
theorem C9_simplifier_safe (ls : List String)
    (g : String × List (String × String))
    (hg : g ∈ (mainLoop initSt ls).out) :
    g.2 ≠ [] ∧
    ∀ (pystr : String → String)
      (simplify_coords : List (String × String) → ℚ → List (String × String)),
      (∀ ps t, ps ≠ [] → simplify_coords ps t ≠ []) →
      Simplified pystr simplify_coords g.2 ≠ none := by
  have h2 : g.2 ≠ [] :=
    mainLoop_out_nonempty initSt ls (by intro g hg'; simp [initSt] at hg') g hg
  exact ⟨h2, fun pystr simplify_coords hlib =>
    Simplified_ne_none pystr simplify_coords hlib g.2 h2⟩

/-- C9 witness: a concrete run emitting one group, whose point sequence is
nonempty and on which `Simplified` succeeds with the identity library. -/
theorem C9_witness :
    (("", [("-12.123456", "34.123456")]) :
        String × List (String × String)).2 ≠ [] ∧
    Simplified (fun (s : String) => s) (fun ps _ => ps)
      [("-12.123456", "34.123456")] ≠ none := by
  have h := C9_simplifier_safe ["-12.123456,34.123456", "x"]
    ("", [("-12.123456", "34.123456")]) (by decide)
  exact ⟨h.1, h.2 (fun s => s) (fun ps _ => ps) (fun ps t hp => hp)⟩

/-! Claim C3: coordinate-record classification and precision truncation. -/

/-- Dropping while a predicate holds skips over any block that satisfies it
everywhere. -/
lemma dropWhile_all_append (p : Char → Bool) (l1 l2 : List Char)
    (h : l1.all p = true) :
    (l1 ++ l2).dropWhile p = l2.dropWhile p := by
  induction l1 with
  | nil => rfl
  | cons a l ih =>
      simp only [List.all_cons, Bool.and_eq_true] at h
      simp only [List.cons_append, List.dropWhile_cons, h.1, if_true]
      exact ih h.2

/-- The coordinate alternative matches a strict `-DD.DDDDDD…,DD.DDDDDD…`
line at its start, capturing exactly the sign, degree digits, decimal point
and FIRST six fractional digits of each number; the excess digit blocks
`e1`, `e2` are consumed outside the captures. -/
lemma tryCoordAt_strict (a b c d x1 x2 x3 x4 x5 x6 y1 y2 y3 y4 y5 y6 : Char)
    (e1 e2 : List Char)
    (ha : a.isDigit = true) (hb : b.isDigit = true)
    (hc : c.isDigit = true) (hd : d.isDigit = true)
    (hx1 : x1.isDigit = true) (hx2 : x2.isDigit = true)
    (hx3 : x3.isDigit = true) (hx4 : x4.isDigit = true)
    (hx5 : x5.isDigit = true) (hx6 : x6.isDigit = true)
    (hy1 : y1.isDigit = true) (hy2 : y2.isDigit = true)
    (hy3 : y3.isDigit = true) (hy4 : y4.isDigit = true)
    (hy5 : y5.isDigit = true) (hy6 : y6.isDigit = true)
    (he1 : e1.all Char.isDigit = true) (he2 : e2.all Char.isDigit = true) :
    tryCoordAt ('-' :: a :: b :: '.' :: x1 :: x2 :: x3 :: x4 :: x5 :: x6 ::
        (e1 ++ ',' :: c :: d :: '.' :: y1 :: y2 :: y3 :: y4 :: y5 :: y6 :: e2)) =
      some (['-', a, b, '.', x1, x2, x3, x4, x5, x6],
            [c, d, '.', y1, y2, y3, y4, y5, y6]) := by
  simp only [tryCoordAt]
  rw [dropWhile_all_append Char.isDigit e1
    (',' :: c :: d :: '.' :: y1 :: y2 :: y3 :: y4 :: y5 :: y6 :: e2) he1]
  simp +decide [ha, hb, hc, hd, hx1, hx2, hx3, hx4, hx5, hx6,
    hy1, hy2, hy3, hy4, hy5, hy6, List.dropWhile_cons]

/-- The full leftmost search on a strict coordinate line returns the
coordinate match with the truncated captures. -/
lemma reSearch_strict (a b c d x1 x2 x3 x4 x5 x6 y1 y2 y3 y4 y5 y6 : Char)
    (e1 e2 : List Char)
    (ha : a.isDigit = true) (hb : b.isDigit = true)
    (hc : c.isDigit = true) (hd : d.isDigit = true)
    (hx1 : x1.isDigit = true) (hx2 : x2.isDigit = true)
    (hx3 : x3.isDigit = true) (hx4 : x4.isDigit = true)
    (hx5 : x5.isDigit = true) (hx6 : x6.isDigit = true)
    (hy1 : y1.isDigit = true) (hy2 : y2.isDigit = true)
    (hy3 : y3.isDigit = true) (hy4 : y4.isDigit = true)
    (hy5 : y5.isDigit = true) (hy6 : y6.isDigit = true)
    (he1 : e1.all Char.isDigit = true) (he2 : e2.all Char.isDigit = true) :
    reSearch ('-' :: a :: b :: '.' :: x1 :: x2 :: x3 :: x4 :: x5 :: x6 ::
        (e1 ++ ',' :: c :: d :: '.' :: y1 :: y2 :: y3 :: y4 :: y5 :: y6 :: e2)) =
      some (.coordM ['-', a, b, '.', x1, x2, x3, x4, x5, x6]
        [c, d, '.', y1, y2, y3, y4, y5, y6]) := by
  have hname : tryNameAt ('-' :: a :: b :: '.' :: x1 :: x2 :: x3 :: x4 :: x5 :: x6 ::
      (e1 ++ ',' :: c :: d :: '.' :: y1 :: y2 :: y3 :: y4 :: y5 :: y6 :: e2)) = none := rfl
  simp only [reSearch]
  rw [hname, tryCoordAt_strict a b c d x1 x2 x3 x4 x5 x6 y1 y2 y3 y4 y5 y6 e1 e2
    ha hb hc hd hx1 hx2 hx3 hx4 hx5 hx6 hy1 hy2 hy3 hy4 hy5 hy6 he1 he2]

/-- C3 counterexample: the regex's decimal points are unescaped wildcards,
so the line `-129345678,299123456` — which contains NO decimal number of
the form `-DD.DDDDDD` or `DD.DDDDDD` (it has no decimal point at all) — is
nevertheless classified as a coordinate record, refuting the claimed
"exactly when". -/
theorem C3_counterexample :
    classify "-129345678,299123456" =
      LineClass.coordRec "-129345678" "299123456" ∧
    containsStrictCoord ("-129345678,299123456".data) = false := by
  decide

/-- C3 (amended): a line consisting of `-DD.DDDDDD`, extra digits, a comma,
and `DD.DDDDDD` with extra digits (longitude first) is classified as a
coordinate record whose captured numbers keep exactly the first six
fractional digits of each coordinate, discarding (not rounding) the excess
digits; the converse direction of the original claim fails because the
decimal points in the pattern are unescaped wildcards (see the
counterexample). -/
theorem C3_amended (a b c d x1 x2 x3 x4 x5 x6 y1 y2 y3 y4 y5 y6 : Char)
    (e1 e2 : List Char)
    (ha : a.isDigit = true) (hb : b.isDigit = true)
    (hc : c.isDigit = true) (hd : d.isDigit = true)
    (hx1 : x1.isDigit = true) (hx2 : x2.isDigit = true)
    (hx3 : x3.isDigit = true) (hx4 : x4.isDigit = true)
    (hx5 : x5.isDigit = true) (hx6 : x6.isDigit = true)
    (hy1 : y1.isDigit = true) (hy2 : y2.isDigit = true)
    (hy3 : y3.isDigit = true) (hy4 : y4.isDigit = true)
    (hy5 : y5.isDigit = true) (hy6 : y6.isDigit = true)
    (he1 : e1.all Char.isDigit = true) (he2 : e2.all Char.isDigit = true) :
    classify (String.mk ('-' :: a :: b :: '.' :: x1 :: x2 :: x3 :: x4 :: x5 :: x6 ::
        (e1 ++ ',' :: c :: d :: '.' :: y1 :: y2 :: y3 :: y4 :: y5 :: y6 :: e2))) =
      LineClass.coordRec (String.mk ['-', a, b, '.', x1, x2, x3, x4, x5, x6])
        (String.mk [c, d, '.', y1, y2, y3, y4, y5, y6]) := by
  show classifyL ('-' :: a :: b :: '.' :: x1 :: x2 :: x3 :: x4 :: x5 :: x6 ::
      (e1 ++ ',' :: c :: d :: '.' :: y1 :: y2 :: y3 :: y4 :: y5 :: y6 :: e2)) = _
  unfold classifyL
  rw [reSearch_strict a b c d x1 x2 x3 x4 x5 x6 y1 y2 y3 y4 y5 y6 e1 e2
    ha hb hc hd hx1 hx2 hx3 hx4 hx5 hx6 hy1 hy2 hy3 hy4 hy5 hy6 he1 he2]

/-- C3 witness: the spec's precision-truncation example —
`-97.76783648,29.43458974957393` parses to the truncated captures
`-97.767836` and `29.434589`. -/
theorem C3_witness :
    classify "-97.76783648,29.43458974957393" =
      LineClass.coordRec "-97.767836" "29.434589" :=
  C3_amended '9' '7' '2' '9' '7' '6' '7' '8' '3' '6' '4' '3' '4' '5' '8' '9'
    ['4', '8'] ['7', '4', '9', '5', '7', '3', '9', '3']
    rfl rfl rfl rfl rfl rfl rfl rfl rfl rfl rfl rfl rfl rfl rfl rfl rfl rfl

end KmlParse
